import Mathlib

/-!
The `StreamError` variant of the wasi:io/streams bindings (`bindings.wrpc.go`).

A shallow embedding of the generated Go bindings for `wasi:io/streams`:
the two-case variant `StreamError`, its accessors and its encoder
`WriteToIndex`, together with the varint routines of Go's `encoding/binary`
that the encoder calls.

Conventions of the embedding:
* a byte is a `Nat` below 256, `byte(x)` is `x % 256`;
* a Go call that may panic returns an `Outcome`;
* Go's `error` interface is `Option GoError`, `none` being the nil error;
* methods with a pointer receiver that only read `*v` take the struct value;
  methods that assign through the receiver act on a `Store` of cells.
-/

namespace Streams

/-! ## Go runtime values -/

/-- Go's `string` type. -/
abbrev GoString := String

/-- Result of running Go code that may panic. `outOfFuel` is the outcome of a
bounded loop model whose bound was reached; it is shown unreachable for the
loops of this file. -/
inductive Outcome (α : Type) where
  | ret (a : α)
  | panicked (msg : String)
  | outOfFuel
  deriving DecidableEq

/-- A non-nil Go `error` value: `errors.New(msg)`, or
`fmt.Errorf(msg + ": %w", cause)` wrapping a cause. -/
inductive GoError where
  | new (msg : String)
  | errorf (msg : String) (cause : GoError)
  deriving DecidableEq

/-- The interface type `Error` (alias of `wasi__io__error.Error`, declared in
another package): a resource handle, generated as a Go interface like the
resources `InputStream` and `OutputStream` of this file. `H` is the type of
its non-nil values; `none` is the nil interface value. -/
abbrev Error (H : Type) := Option H

/-- A value of the empty interface `any`, seen from the one type assertion
the bindings perform on it: nil, a non-nil value whose dynamic type
implements `Error`, or a non-nil value of some other dynamic type. -/
inductive AnyVal (H : Type) where
  | nil
  | error (h : H)
  | other (tag : Nat)
  deriving DecidableEq

/-- Implicit conversion of an `Error` interface value to `any` (the
assignment `v.payload = payload`): a nil interface stays nil. -/
def Error.toAny {H : Type} : Error H → AnyVal H
  | none => AnyVal.nil
  | some h => AnyVal.error h

/-- The comma-ok type assertion `x.(Error)`: it holds exactly for a non-nil
interface value whose dynamic type implements `Error`; otherwise the result
is the zero value of `Error` (nil) and `false`. -/
def AnyVal.assertError {H : Type} : AnyVal H → Error H × Bool
  | AnyVal.error h => (some h, true)
  | AnyVal.nil => (none, false)
  | AnyVal.other _ => (none, false)

/-! ## The variant `StreamError` -/

/-- Source: `type StreamErrorDiscriminant uint8`. -/
abbrev StreamErrorDiscriminant := Fin 256

/-- Source: `StreamErrorDiscriminant_LastOperationFailed = 0`. -/
def StreamErrorDiscriminant_LastOperationFailed : StreamErrorDiscriminant := 0

/-- Source: `StreamErrorDiscriminant_Closed = 1`. -/
def StreamErrorDiscriminant_Closed : StreamErrorDiscriminant := 1

/-- Source: `type StreamError struct { payload any; discriminant StreamErrorDiscriminant }`. -/
structure StreamError (H : Type) where
  payload : AnyVal H
  discriminant : StreamErrorDiscriminant

/-- The composite literal `StreamError{}`: every field at its zero value. -/
def StreamError.zero (H : Type) : StreamError H :=
  { payload := AnyVal.nil, discriminant := 0 }

/-- Source: `func (v *StreamError) Discriminant() StreamErrorDiscriminant`. -/
def StreamError.Discriminant {H : Type} (v : StreamError H) : StreamErrorDiscriminant :=
  v.discriminant

/-- Source: `func (v *StreamError) String() string`, a switch on the
discriminant whose default branch panics. -/
def StreamError.String {H : Type} (v : StreamError H) : Outcome GoString :=
  if v.discriminant = StreamErrorDiscriminant_LastOperationFailed then
    Outcome.ret "last-operation-failed"
  else if v.discriminant = StreamErrorDiscriminant_Closed then
    Outcome.ret "closed"
  else
    Outcome.panicked "invalid variant"

/-- Source: `func (v *StreamError) Error() string { return v.String() }`. -/
def StreamError.Error {H : Type} (v : StreamError H) : Outcome GoString :=
  v.String

/-- Source: `func (v *StreamError) GetLastOperationFailed() (payload Error, ok bool)`.
The named results start at their zero values; the early `return` yields them
with `ok` already assigned, the final one yields the type assertion. -/
def StreamError.GetLastOperationFailed {H : Type} (v : StreamError H) :
    Streams.Error H × Bool :=
  let ok := decide (v.discriminant = StreamErrorDiscriminant_LastOperationFailed)
  if !ok then
    (none, ok)
  else
    v.payload.assertError

/-- Source: `func (v *StreamError) GetClosed() (ok bool)`. Both branches
return the named result `ok`. -/
def StreamError.GetClosed {H : Type} (v : StreamError H) : Bool :=
  let ok := decide (v.discriminant = StreamErrorDiscriminant_Closed)
  if !ok then
    ok
  else
    ok

/-! ## Pointers to `StreamError` -/

/-- Address of a `StreamError` cell. -/
abbrev Ptr := Nat

/-- The memory holding `StreamError` cells: `cell p` is the struct at address
`p`, and `next` is the first address not yet handed out by an allocation. -/
structure Store (H : Type) where
  next : Nat
  cell : Ptr → StreamError H

/-- Assignment `*p = x` as a whole-struct update. -/
def Store.assign {H : Type} (m : Store H) (p : Ptr) (x : StreamError H) : Store H :=
  { m with cell := fun q => if q = p then x else m.cell q }

/-- The expression `&StreamError{}`: a fresh cell holding the zero value. -/
def Store.alloc {H : Type} (m : Store H) : Store H × Ptr :=
  ({ next := m.next + 1,
     cell := fun q => if q = m.next then StreamError.zero H else m.cell q }, m.next)

/-- Source: `func (v *StreamError) SetLastOperationFailed(payload Error) *StreamError`:
two field assignments through `v`, then `return v`. -/
def SetLastOperationFailed {H : Type} (m : Store H) (v : Ptr) (payload : Error H) :
    Store H × Ptr :=
  let m1 := m.assign v { m.cell v with discriminant := StreamErrorDiscriminant_LastOperationFailed }
  let m2 := m1.assign v { m1.cell v with payload := Error.toAny payload }
  (m2, v)

/-- Source: `func (StreamError) NewLastOperationFailed(payload Error) *StreamError`.
The value receiver is unused. -/
def NewLastOperationFailed {H : Type} (m : Store H) (payload : Error H) : Store H × Ptr :=
  let a := m.alloc
  SetLastOperationFailed a.1 a.2 payload

/-- Source: `func (v *StreamError) SetClosed() *StreamError`. -/
def SetClosed {H : Type} (m : Store H) (v : Ptr) : Store H × Ptr :=
  let m1 := m.assign v { m.cell v with discriminant := StreamErrorDiscriminant_Closed }
  let m2 := m1.assign v { m1.cell v with payload := AnyVal.nil }
  (m2, v)

/-- Source: `func (StreamError) NewClosed() *StreamError`. -/
def NewClosed {H : Type} (m : Store H) : Store H × Ptr :=
  let a := m.alloc
  SetClosed a.1 a.2

/-! ## Varints of `encoding/binary` -/

/-- The loop of Go's `binary.PutUvarint(buf, x)`:
`for x >= 0x80 { buf[i] = byte(x) | 0x80; x >>= 7; i++ }; buf[i] = byte(x); return i + 1`.
An index beyond the buffer panics. `fuel` bounds the number of iterations. -/
def PutUvarint.loop : Nat → List Nat → Nat → Nat → Outcome (List Nat × Nat)
  | 0, _, _, _ => Outcome.outOfFuel
  | fuel + 1, buf, x, i =>
    if x ≥ 0x80 then
      if i < buf.length then
        PutUvarint.loop fuel (buf.set i ((x % 256) ||| 0x80)) (x >>> 7) (i + 1)
      else
        Outcome.panicked "index out of range"
    else
      if i < buf.length then
        Outcome.ret (buf.set i (x % 256), i + 1)
      else
        Outcome.panicked "index out of range"

/-- Go's `binary.PutUvarint(buf, x)` for a `uint64` argument `x`: the buffer
after the call and the number of bytes written. Ten rounds
(`binary.MaxVarintLen64`) exhaust any 64-bit argument. -/
def PutUvarint (buf : List Nat) (x : Nat) : Outcome (List Nat × Nat) :=
  PutUvarint.loop 10 buf x 0

/-- The `range` loop of Go's `binary.Uvarint(buf)`, at index `i` with
accumulator `x` and shift `s`; `bs` is the part of the buffer not yet read.
The second component is the signed count `n` of the Go result. -/
def Uvarint.loop : List Nat → Nat → Nat → Nat → Nat × Int
  | [], _, _, _ => (0, 0)
  | b :: bs, i, x, s =>
    if i = 10 then
      (0, -((i : Int) + 1))
    else if b < 0x80 then
      if i = 10 - 1 ∧ b > 1 then
        (0, -((i : Int) + 1))
      else
        ((x ||| (b <<< s) % 2 ^ 64), (i : Int) + 1)
    else
      Uvarint.loop bs (i + 1) (x ||| ((b &&& 0x7f) <<< s) % 2 ^ 64) (s + 7)

/-- Go's `binary.Uvarint(buf)`: base-128 decoding of an unsigned integer,
returning the value and the number of bytes read (`n <= 0` on failure). -/
def Uvarint (buf : List Nat) : Nat × Int :=
  Uvarint.loop buf 0 0 0

/-! ## Writers and the encoder -/

/-- A `wrpc.ByteWriter` (an `io.Writer`) over writer states `σ`:
`Write w p` is the state after `w.Write(p)`, the count `n` and the error. -/
structure ByteWriter (σ : Type) where
  Write : σ → List Nat → σ × Nat × Option GoError

/-- A `wrpc.IndexWriter` over writer states `ι`: `Index w i` is the result of
`w.Index(i)`, a child writer or an error. -/
structure IndexWriter (ι : Type) where
  Index : ι → Nat → Except GoError ι

/-- A non-nil `func(wrpc.IndexWriter) error`: run on a writer it leaves the
writer in some state and returns an error value. -/
abbrev DeferredWriter (ι : Type) := ι → ι × Option GoError

/-- The function literal applied to `(uint8(v.discriminant), w)` at the head
of `WriteToIndex`: `b := make([]byte, 2); i := binary.PutUvarint(b, uint64(v));`
`_, err := w.Write(b[:i]); return err`. The slice expression `b[:i]` panics
when `i` exceeds the capacity of `b`. The debug log line is not modelled. -/
def writeDiscriminant {σ : Type} (W : ByteWriter σ) (v : Nat) (w : σ) :
    Outcome (σ × Option GoError) :=
  let b := List.replicate 2 0
  match PutUvarint b v with
  | Outcome.ret (b1, i) =>
    if i ≤ b1.length then
      let r := W.Write w (b1.take i)
      Outcome.ret (r.1, r.2.2)
    else
      Outcome.panicked "slice bounds out of range"
  | Outcome.panicked msg => Outcome.panicked msg
  | Outcome.outOfFuel => Outcome.outOfFuel

/-- The closure returned by `WriteToIndex` when the payload yields a writer:
`func(w wrpc.IndexWriter) error { w, err := w.Index(0); if err != nil {`
`return fmt.Errorf("failed to index writer: %w", err) }; return write(w) }`. -/
def indexThenWrite {ι : Type} (I : IndexWriter ι) (write : DeferredWriter ι) :
    DeferredWriter ι :=
  fun w =>
    match I.Index w 0 with
    | Except.error err => (w, some (GoError.errorf "failed to index writer" err))
    | Except.ok w1 => write w1

/-- Source: `func (v *StreamError) WriteToIndex(w wrpc.ByteWriter) (func(wrpc.IndexWriter) error, error)`.
The result is the writer state after the call, the returned function
(`none` for nil) and the returned error (`none` for nil). -/
def StreamError.WriteToIndex {H σ ι : Type} (W : ByteWriter σ) (I : IndexWriter ι)
    (v : StreamError H) (w : σ) :
    Outcome (σ × Option (DeferredWriter ι) × Option GoError) :=
  match writeDiscriminant W v.discriminant.val w with
  | Outcome.panicked msg => Outcome.panicked msg
  | Outcome.outOfFuel => Outcome.outOfFuel
  | Outcome.ret (w1, some err) =>
    Outcome.ret (w1, none, some (GoError.errorf "failed to write discriminant" err))
  | Outcome.ret (w1, none) =>
    if v.discriminant = StreamErrorDiscriminant_LastOperationFailed then
      let r := v.payload.assertError
      if !r.2 then
        Outcome.ret (w1, none, some (GoError.new "invalid payload"))
      else
        let write : Option (DeferredWriter ι) := none
        let err : Option GoError :=
          (fun (_ : AnyVal H) => some (GoError.new "writing owned handles not supported yet"))
            (Error.toAny r.1)
        match err with
        | some e => Outcome.ret (w1, none, some (GoError.errorf "failed to write payload" e))
        | none =>
          match write with
          | some wr => Outcome.ret (w1, some (indexThenWrite I wr), none)
          | none => Outcome.ret (w1, none, none)
    else if v.discriminant = StreamErrorDiscriminant_Closed then
      Outcome.ret (w1, none, none)
    else
      Outcome.ret (w1, none, some (GoError.new "invalid variant"))

/-- An in-memory writer that appends every write to its contents and never
fails, in the manner of `bytes.Buffer`. -/
def bufferWriter : ByteWriter (List Nat) :=
  { Write := fun w p => (w ++ p, p.length, none) }

/-- A writer that accepts nothing: every `Write` returns 0 and `err`, leaving
the contents as they were. -/
def failingWriter (err : GoError) : ByteWriter (List Nat) :=
  { Write := fun w _ => (w, 0, some err) }

/-- An index writer whose `Index(i)` extends the path by `i`. -/
def pathIndexWriter : IndexWriter (List Nat) :=
  { Index := fun w i => Except.ok (w ++ [i]) }

/-- Modelled from the spec: the decoder of `StreamError` is not part of the
source file. Following "read the discriminant, dispatch to the matching
case's decoder": the discriminant is read with the base-128 decoder
`Uvarint`; case 0 hands the remaining bytes to the decoder of the `Error`
payload, given as `decodeError`; case 1 has no payload; any other
discriminant, or an unterminated one, is a malformed encoding. The result is
the value and the bytes left over. -/
def ReadStreamError {H : Type} (decodeError : List Nat → Except GoError (H × List Nat))
    (bs : List Nat) : Except GoError (StreamError H × List Nat) :=
  let r := Uvarint bs
  if r.2 ≤ 0 then
    Except.error (GoError.new "malformed encoding")
  else if r.1 = 0 then
    match decodeError (bs.drop r.2.toNat) with
    | Except.ok (h, rest) =>
      Except.ok ({ payload := AnyVal.error h,
                   discriminant := StreamErrorDiscriminant_LastOperationFailed }, rest)
    | Except.error err => Except.error err
  else if r.1 = 1 then
    Except.ok ({ payload := AnyVal.nil, discriminant := StreamErrorDiscriminant_Closed },
      bs.drop r.2.toNat)
  else
    Except.error (GoError.new "malformed encoding")

/-- The store used in the closed examples: nothing allocated, every cell at
the zero value. -/
def emptyStore : Store Nat :=
  { next := 0, cell := fun _ => StreamError.zero Nat }

/-! ## Sequences of calls on `StreamError` cells -/

/-- One call of the exported API that creates or assigns a `StreamError`:
a setter on the receiver `v`, or a constructor. -/
inductive ApiCall (H : Type) where
  | SetLastOperationFailed (v : Ptr) (payload : Error H)
  | SetClosed (v : Ptr)
  | NewLastOperationFailed (payload : Error H)
  | NewClosed

/-- The store after one call. -/
def ApiCall.run {H : Type} (m : Store H) : ApiCall H → Store H
  | ApiCall.SetLastOperationFailed v payload => (Streams.SetLastOperationFailed m v payload).1
  | ApiCall.SetClosed v => (Streams.SetClosed m v).1
  | ApiCall.NewLastOperationFailed payload => (Streams.NewLastOperationFailed m payload).1
  | ApiCall.NewClosed => (Streams.NewClosed m).1

/-- The store after a sequence of calls, first call first. -/
def runCalls {H : Type} (m : Store H) (calls : List (ApiCall H)) : Store H :=
  calls.foldl ApiCall.run m

/-! ## The stream resources -/

/-- Modelled from the spec: `InputStream` and `OutputStream` are interfaces in
the source file and no implementation is part of it. Following the state
machine of the Stream Resource Contract, a stream is open, ready or not
ready, or closed. -/
inductive StreamState where
  | ready
  | notReady
  | closed
  deriving DecidableEq

/-- The methods of `InputStream` and `OutputStream` that return a
`wrpc.Result` with a `StreamError` (`Subscribe` and `Drop` do not), with
their arguments; `src` is the handle of the input stream given to a splice. -/
inductive StreamOp where
  | Read (len : Nat)
  | BlockingRead (len : Nat)
  | Skip (len : Nat)
  | BlockingSkip (len : Nat)
  | CheckWrite
  | Write (contents : List Nat)
  | BlockingWriteAndFlush (contents : List Nat)
  | Flush
  | BlockingFlush
  | WriteZeroes (len : Nat)
  | BlockingWriteZeroesAndFlush (len : Nat)
  | Splice (src : Nat) (len : Nat)
  | BlockingSplice (src : Nat) (len : Nat)
  deriving DecidableEq

/-- Modelled from the spec: what happens to an open stream during one
sub-operation, which the contract leaves to the resource: it completes with
a count (a permit, a number of bytes) and leaves the stream ready or not, it
fails before completion, or the stream has closed. -/
inductive StreamEvent where
  | completes (count : Nat) (readyAfter : Bool)
  | fails (readyAfter : Bool)
  | closes
  deriving DecidableEq

/-- The result of a stream operation: a value, or one of the two cases of
`StreamError`. -/
inductive StreamResult where
  | ok (count : Nat)
  | lastOperationFailed
  | closed
  deriving DecidableEq

/-- Modelled from the spec: one sub-operation (a check-write, a read, a
write, a flush, a skip) on one stream. "Every operation on a Closed resource
returns the Closed error immediately and has no other side effect"; on an
open stream the event decides, `LastOperationFailed` leaves the stream open,
and `Closed` is reported when the stream has closed, a one-way transition. -/
def StreamState.step (s : StreamState) (ev : StreamEvent) : StreamState × StreamResult :=
  match s with
  | StreamState.closed => (StreamState.closed, StreamResult.closed)
  | _ =>
    match ev with
    | StreamEvent.completes count readyAfter =>
      (if readyAfter then StreamState.ready else StreamState.notReady, StreamResult.ok count)
    | StreamEvent.fails readyAfter =>
      (if readyAfter then StreamState.ready else StreamState.notReady,
        StreamResult.lastOperationFailed)
    | StreamEvent.closes => (StreamState.closed, StreamResult.closed)

/-- Modelled from the spec: the stream resources of a program, by handle. -/
abbrev Resources := Nat → StreamState

/-- Modelled from the spec: one sub-operation on the stream with handle `id`;
the other streams are untouched. -/
def perform (rs : Resources) (id : Nat) (ev : StreamEvent) : Resources × StreamResult :=
  (fun q => if q = id then ((rs id).step ev).1 else rs q, ((rs id).step ev).2)

/-- Modelled from the spec: the streams on which an operation called on
`self` runs its sub-operations, in order. A splice is "check-write on the
output-stream, read on the input-stream, write on the output-stream"; the
blocking write-and-flush wrappers repeat check-write and write on the stream
itself, `rounds` times, then flush and check-write once more; every other
operation is a single sub-operation on the stream itself. -/
def StreamOp.targets (self rounds : Nat) : StreamOp → List Nat
  | StreamOp.Splice src _ => [self, src, self]
  | StreamOp.BlockingSplice src _ => [self, src, self]
  | StreamOp.BlockingWriteAndFlush _ => List.replicate (2 * rounds + 2) self
  | StreamOp.BlockingWriteZeroesAndFlush _ => List.replicate (2 * rounds + 2) self
  | _ => [self]

/-- The input stream an operation reads from, for the two splices. -/
def StreamOp.source : StreamOp → Option Nat
  | StreamOp.Splice src _ => some src
  | StreamOp.BlockingSplice src _ => some src
  | _ => none

/-- Modelled from the spec: sub-operations run in order on their targets, the
`k`-th under the event `events k`; "any error reported by the call to
check-write, read, or write ends the splice and reports that error", and
without an error the result is that of the last sub-operation. -/
def performAll (events : Nat → StreamEvent) :
    Resources → Nat → List Nat → StreamResult → Resources × StreamResult
  | rs, _, [], last => (rs, last)
  | rs, k, id :: rest, _ =>
    match (perform rs id (events k)).2 with
    | StreamResult.ok count =>
      performAll events (perform rs id (events k)).1 (k + 1) rest (StreamResult.ok count)
    | StreamResult.lastOperationFailed =>
      ((perform rs id (events k)).1, StreamResult.lastOperationFailed)
    | StreamResult.closed => ((perform rs id (events k)).1, StreamResult.closed)

/-- One call issued by the program: the operation `op` on the stream `self`,
with what the streams do during its sub-operations. `rounds` is the number
of loop rounds of a blocking write-and-flush wrapper, which the permits it
receives decide; other operations do not use it. -/
structure StreamStep where
  self : Nat
  op : StreamOp
  rounds : Nat
  events : Nat → StreamEvent

/-- Modelled from the spec: the streams after one call, and its result. -/
def StreamStep.run (rs : Resources) (st : StreamStep) : Resources × StreamResult :=
  performAll st.events rs 0 (st.op.targets st.self st.rounds) (StreamResult.ok 0)

/-- Modelled from the spec: the results of a sequence of calls issued by one
caller, in issue order. -/
def runSteps : Resources → List StreamStep → List StreamResult
  | _, [] => []
  | rs, st :: rest => (st.run rs).2 :: runSteps (st.run rs).1 rest

/-- Two streams for the closed examples: the stream with handle 1 is closed,
every other stream, the one with handle 0 among them, is open and ready. -/
def closedSourceOnly : Resources :=
  fun id => if id = 1 then StreamState.closed else StreamState.ready

/-- Streams for the closed examples: every stream open and ready. -/
def allReady : Resources :=
  fun _ => StreamState.ready

/-! ## The pseudo-code of `BlockingWriteAndFlush` -/

/-- A call made by the pseudo-code on the output stream or on its pollable. -/
inductive StreamCall where
  | subscribe
  | block
  | checkWrite
  | write (chunk : List Nat)
  | flush
  deriving DecidableEq

/-- Modelled from the spec: `BlockingWriteAndFlush` is an interface method
without a body in the source file; what it does is the pseudo-code of its
doc comment, "repeatedly wait-on-pollable, check-write, write chunk within
the permit, until all content consumed, then flush and wait". This is the
loop `while !contents.is_empty()`: `let Ok(n) = this.check-write();`
`let len = min(n, contents.len()); let (chunk, rest) = contents.split_at(len);`
`this.write(chunk); contents = rest`. The first argument lists the permits
that the successive `check-write` calls return. The result pairs, round by
round, the permit received with the chunk written; it is `none` when the
permits end while contents remain. -/
def BlockingWriteAndFlush.rounds : List Nat → List Nat → Option (List (Nat × List Nat))
  | [], contents => if contents.isEmpty then some [] else none
  | n :: permits, contents =>
    if contents.isEmpty then
      some []
    else
      let len := min n contents.length
      let chunk := contents.take len
      let rest := contents.drop len
      (BlockingWriteAndFlush.rounds permits rest).map fun rs => (n, chunk) :: rs

/-- Modelled from the spec: the calls of one round of the loop of the
pseudo-code: `pollable.block()`, `this.check-write()`, `this.write(chunk)`. -/
def BlockingWriteAndFlush.roundCalls (r : Nat × List Nat) : List StreamCall :=
  [StreamCall.block, StreamCall.checkWrite, StreamCall.write r.2]

/-- Modelled from the spec: the pseudo-code documented on
`BlockingWriteAndFlush`, a method without a body in the source file, as the
sequence of calls it makes: `subscribe`, the rounds of the loop, then
`flush`, `block` and a last `check-write` whose result is dropped. -/
def BlockingWriteAndFlush (permits : List Nat) (contents : List Nat) :
    Option (List StreamCall) :=
  (BlockingWriteAndFlush.rounds permits contents).map fun rs =>
    [StreamCall.subscribe] ++ (rs.map BlockingWriteAndFlush.roundCalls).flatten ++
      [StreamCall.flush, StreamCall.block, StreamCall.checkWrite]

/-- The chunks passed to `write` in a sequence of calls, in order. -/
def writtenChunks : List StreamCall → List (List Nat)
  | [] => []
  | StreamCall.write chunk :: rest => chunk :: writtenChunks rest
  | _ :: rest => writtenChunks rest

/-! ## The discriminant writer -/

set_option maxRecDepth 100000 in
/-- Bytes that `PutUvarint` leaves in a 2-byte buffer for an 8-bit value. -/
theorem PutUvarint_uint8 (d : Fin 256) :
    PutUvarint (List.replicate 2 0) d.val =
      if d.val < 128 then Outcome.ret ([d.val, 0], 1)
      else Outcome.ret ([d.val % 128 + 128, d.val / 128], 2) := by
  revert d
  decide

/-- The discriminant writer hands the writer one `Write` call, carrying the
one or two bytes of the encoding. -/
theorem writeDiscriminant_uint8 {σ : Type} (W : ByteWriter σ) (d : Fin 256) (w : σ) :
    writeDiscriminant W d.val w =
      Outcome.ret
        ((W.Write w (if d.val < 128 then [d.val] else [d.val % 128 + 128, d.val / 128])).1,
         (W.Write w (if d.val < 128 then [d.val] else [d.val % 128 + 128, d.val / 128])).2.2) := by
  simp only [writeDiscriminant]
  rw [PutUvarint_uint8]
  by_cases h : d.val < 128 <;> simp [h]

/-- The loop model of `PutUvarint` never stops for lack of fuel when the
argument is below `128 ^ fuel`. -/
theorem PutUvarint.loop_fuel (fuel : Nat) :
    ∀ (buf : List Nat) (x i : Nat), 0 < fuel → x < 128 ^ fuel →
      PutUvarint.loop fuel buf x i ≠ Outcome.outOfFuel := by
  induction fuel with
  | zero => intro buf x i h0; omega
  | succ n ih =>
    intro buf x i _ hx
    unfold PutUvarint.loop
    by_cases hge : x ≥ 0x80
    · by_cases hi : i < buf.length
      · simp only [hge, hi, if_true]
        have hn : 0 < n := by
          rcases Nat.eq_zero_or_pos n with h | h
          · subst h; simp at hx; omega
          · exact h
        apply ih _ _ _ hn
        rw [Nat.shiftRight_eq_div_pow]
        rw [pow_succ] at hx
        exact Nat.div_lt_of_lt_mul (by simpa [Nat.mul_comm] using hx)
      · simp [hge, hi]
    · by_cases hi : i < buf.length <;> simp [hge, hi]

/-- For every 64-bit argument `PutUvarint` runs to completion: it returns or
panics on a short buffer, never exhausting the ten rounds of the model. -/
theorem PutUvarint_total (buf : List Nat) (x : Nat) (hx : x < 2 ^ 64) :
    PutUvarint buf x ≠ Outcome.outOfFuel := by
  unfold PutUvarint
  apply PutUvarint.loop_fuel 10 buf x 0 (by decide)
  calc x < 2 ^ 64 := hx
    _ ≤ 128 ^ 10 := by norm_num

/-! ## Claims -/

/-- C1: a `StreamError` whose active case is `Closed` (any value with that
discriminant, in particular the one left by `SetClosed` on any cell and the
one built by `NewClosed`) is encoded by `WriteToIndex` as a single `Write` of
the one byte `0x01`; when that `Write` succeeds the call returns a nil
deferred writer and a nil error. On an appending writer the contents grow by
exactly `[1]`. -/
theorem closed_writes_single_byte {H σ ι : Type} (W : ByteWriter σ) (I : IndexWriter ι)
    (w : σ) (hw : (W.Write w [1]).2.2 = none) :
    (∀ v : StreamError H, v.discriminant = StreamErrorDiscriminant_Closed →
      v.WriteToIndex W I w = Outcome.ret ((W.Write w [1]).1, none, none)) ∧
    (∀ (m : Store H) (p : Ptr),
      ((SetClosed m p).1.cell (SetClosed m p).2).WriteToIndex W I w =
        Outcome.ret ((W.Write w [1]).1, none, none)) ∧
    (∀ m : Store H,
      ((NewClosed m).1.cell (NewClosed m).2).WriteToIndex W I w =
        Outcome.ret ((W.Write w [1]).1, none, none)) ∧
    (∀ (v : StreamError H) (before : List Nat),
      v.discriminant = StreamErrorDiscriminant_Closed →
      v.WriteToIndex bufferWriter I before = Outcome.ret (before ++ [1], none, none)) := by
  have key : ∀ (τ : Type) (V : ByteWriter τ) (u : τ) (v : StreamError H),
      v.discriminant = StreamErrorDiscriminant_Closed → (V.Write u [1]).2.2 = none →
      v.WriteToIndex V I u = Outcome.ret ((V.Write u [1]).1, none, none) := by
    intro τ V u v hv hu
    simp only [StreamError.WriteToIndex]
    rw [writeDiscriminant_uint8, hv]
    simp [StreamErrorDiscriminant_Closed, StreamErrorDiscriminant_LastOperationFailed] at hu ⊢
    rw [hu]
  refine ⟨fun v hv => key σ W w v hv hw, fun m p => key σ W w _ ?_ hw,
    fun m => key σ W w _ ?_ hw, fun v before hv => key _ bufferWriter before v hv rfl⟩
  · simp [SetClosed, Store.assign]
  · simp [NewClosed, SetClosed, Store.assign]

/-- Witness for C1: the value built by `NewClosed`, written to an empty
appending writer. -/
theorem closed_writes_single_byte_witness :
    ((NewClosed (H := Nat) ⟨0, fun _ => StreamError.zero Nat⟩).1.cell
        (NewClosed (H := Nat) ⟨0, fun _ => StreamError.zero Nat⟩).2).WriteToIndex
      bufferWriter pathIndexWriter [] = Outcome.ret ([1], none, none) :=
  (closed_writes_single_byte (H := Nat) bufferWriter pathIndexWriter [] rfl).2.2.1
    ⟨0, fun _ => StreamError.zero Nat⟩

set_option maxRecDepth 100000 in
/-- Decoding the one or two bytes of an 8-bit value gives the value back
together with the number of bytes. -/
theorem Uvarint_uint8 (d : Fin 256) :
    Uvarint (if d.val < 128 then [d.val] else [d.val % 128 + 128, d.val / 128]) =
      (d.val, if d.val < 128 then 1 else 2) := by
  revert d
  decide

/-- C2: for every 8-bit discriminant `d`, the discriminant writer of
`WriteToIndex` emits bytes `bs` (recorded by an appending writer that starts
empty) which the base-128 decoder `Uvarint` maps back to `d` and to the
number of bytes emitted: `decode (encode d) = (d, len (encode d))`. -/
theorem discriminant_decode_encode (d : Fin 256) :
    ∃ bs : List Nat,
      writeDiscriminant bufferWriter d.val [] = Outcome.ret (bs, none) ∧
      Uvarint bs = (d.val, (bs.length : Int)) := by
  refine ⟨if d.val < 128 then [d.val] else [d.val % 128 + 128, d.val / 128], ?_, ?_⟩
  · rw [writeDiscriminant_uint8]
    simp [bufferWriter]
  · rw [Uvarint_uint8]
    by_cases h : d.val < 128 <;> simp [h]

set_option maxRecDepth 100000 in
/-- C3: for a discriminant `d` in 0..127 the discriminant writer emits the
single byte `d`, whose continuation bit (bit 7) is clear; for `d` in 128..255
it emits two bytes, the first `d mod 128` with the continuation bit set and
the second `d / 128` with the continuation bit clear. Every emitted byte is
an 8-bit value: a continuation bit on top of 7 payload bits. -/
theorem discriminant_byte_layout (d : Fin 256) :
    ∃ bs : List Nat,
      writeDiscriminant bufferWriter d.val [] = Outcome.ret (bs, none) ∧
      (bs = if d.val < 128 then [d.val] else [128 + d.val % 128, d.val / 128]) ∧
      (∀ b ∈ bs, b < 256) ∧
      (if d.val < 128 then
        bs.length = 1 ∧ (bs.map fun b => b.testBit 7) = [false] ∧
          (bs.map fun b => b % 128) = [d.val]
      else
        bs.length = 2 ∧ (bs.map fun b => b.testBit 7) = [true, false] ∧
          (bs.map fun b => b % 128) = [d.val % 128, d.val / 128]) := by
  refine ⟨if d.val < 128 then [d.val] else [d.val % 128 + 128, d.val / 128], ?_, ?_⟩
  · rw [writeDiscriminant_uint8]
    simp [bufferWriter]
  · revert d
    decide

/-- Encoding of a `LastOperationFailed` value holding an `Error`: one `Write`
of the byte `0x00`, then, when that `Write` succeeds, the error of the
payload encoder and no deferred writer. -/
theorem WriteToIndex_lastOperationFailed {H σ ι : Type} (W : ByteWriter σ)
    (I : IndexWriter ι) (v : StreamError H) (h : H) (w : σ)
    (hd : v.discriminant = StreamErrorDiscriminant_LastOperationFailed)
    (hp : v.payload = AnyVal.error h) (hw : (W.Write w [0]).2.2 = none) :
    v.WriteToIndex W I w =
      Outcome.ret ((W.Write w [0]).1, none,
        some (GoError.errorf "failed to write payload"
          (GoError.new "writing owned handles not supported yet"))) := by
  simp only [StreamError.WriteToIndex]
  rw [writeDiscriminant_uint8, hd, hp]
  simp [StreamErrorDiscriminant_LastOperationFailed, AnyVal.assertError] at hw ⊢
  rw [hw]

/-- C4, counterexample: the value built by `NewLastOperationFailed` with the
cause `7` is not encoded successfully. `WriteToIndex` on an empty appending
writer leaves the byte `0x00` and returns a non-nil error. -/
theorem roundtrip_fails_lastOperationFailed :
    ((NewLastOperationFailed (H := Nat) ⟨0, fun _ => StreamError.zero Nat⟩ (some 7)).1.cell
        (NewLastOperationFailed (H := Nat) ⟨0, fun _ => StreamError.zero Nat⟩ (some 7)).2
      ).WriteToIndex bufferWriter pathIndexWriter [] =
      Outcome.ret ([0], none,
        some (GoError.errorf "failed to write payload"
          (GoError.new "writing owned handles not supported yet"))) :=
  WriteToIndex_lastOperationFailed bufferWriter pathIndexWriter _ 7 [] rfl rfl rfl

/-- C4, amended: a `StreamError` whose active case is `Closed` is encoded
successfully by `WriteToIndex` on an appending writer, and decoding the bytes
written yields the `Closed` value without payload and no bytes left over,
which is the encoded value itself when it carries no payload. A
`LastOperationFailed` value holding a cause is not encoded: after the
discriminant byte `WriteToIndex` returns the error "failed to write payload:
writing owned handles not supported yet". -/
theorem roundtrip_closed {H ι : Type} (I : IndexWriter ι)
    (decodeError : List Nat → Except GoError (H × List Nat)) :
    (∀ v : StreamError H, v.discriminant = StreamErrorDiscriminant_Closed →
      ∃ bs : List Nat,
        v.WriteToIndex bufferWriter I [] = Outcome.ret (bs, none, none) ∧
        ReadStreamError decodeError bs =
          Except.ok ({ payload := AnyVal.nil,
                       discriminant := StreamErrorDiscriminant_Closed }, []) ∧
        (v.payload = AnyVal.nil → ReadStreamError decodeError bs = Except.ok (v, []))) ∧
    (∀ (v : StreamError H) (h : H) (before : List Nat),
      v.discriminant = StreamErrorDiscriminant_LastOperationFailed →
      v.payload = AnyVal.error h →
      v.WriteToIndex bufferWriter I before =
        Outcome.ret (before ++ [0], none,
          some (GoError.errorf "failed to write payload"
            (GoError.new "writing owned handles not supported yet")))) := by
  constructor
  · intro v hv
    refine ⟨[1], ?_, ?_, ?_⟩
    · simp only [StreamError.WriteToIndex]
      rw [writeDiscriminant_uint8, hv]
      simp [StreamErrorDiscriminant_Closed, StreamErrorDiscriminant_LastOperationFailed,
        bufferWriter]
    · rfl
    · intro hp
      have hv2 : v = { payload := AnyVal.nil, discriminant := StreamErrorDiscriminant_Closed } := by
        cases v
        simp_all
      rw [hv2]
      rfl
  · intro v h before hd hp
    exact WriteToIndex_lastOperationFailed bufferWriter I v h before hd hp rfl

/-- Witness for the amended C4: the value built by `NewClosed` is written as
`[1]` and read back as itself. -/
theorem roundtrip_closed_witness :
    ∃ bs : List Nat,
      (⟨AnyVal.nil, StreamErrorDiscriminant_Closed⟩ : StreamError Nat).WriteToIndex
        bufferWriter pathIndexWriter [] = Outcome.ret (bs, none, none) ∧
      ReadStreamError (H := Nat) (fun _ => Except.error (GoError.new "no handle")) bs =
        Except.ok ({ payload := AnyVal.nil,
                     discriminant := StreamErrorDiscriminant_Closed }, []) ∧
      ((⟨AnyVal.nil, StreamErrorDiscriminant_Closed⟩ : StreamError Nat).payload = AnyVal.nil →
        ReadStreamError (fun _ => Except.error (GoError.new "no handle")) bs =
          Except.ok ((⟨AnyVal.nil, StreamErrorDiscriminant_Closed⟩ : StreamError Nat), [])) :=
  (roundtrip_closed (H := Nat) pathIndexWriter
    (fun _ => Except.error (GoError.new "no handle"))).1
    ⟨AnyVal.nil, StreamErrorDiscriminant_Closed⟩ rfl

/-- C5, counterexample: after `v.SetLastOperationFailed(nil)`, with the nil
`Error` interface value as payload, `v.GetLastOperationFailed()` does not
match: it returns `(nil, false)`, not `(p, true)`. -/
theorem set_nil_then_get_unmatched :
    ((SetLastOperationFailed emptyStore 0 none).1.cell
        (SetLastOperationFailed emptyStore 0 none).2).GetLastOperationFailed =
      (none, false) := by
  decide

/-- C5, amended: for every cell `v` and every non-nil payload `p` of type
`Error`, after `v.SetLastOperationFailed(p)` the call
`v.GetLastOperationFailed()` returns `(p, true)`, and for every `v`, after
`v.SetClosed()` the call `v.GetClosed()` returns `true`; the same holds for
the values built by `NewLastOperationFailed(p)` and `NewClosed()`. For the nil
`Error` value the getter returns `(nil, false)` after either
`SetLastOperationFailed(nil)` or `NewLastOperationFailed(nil)`. -/
theorem set_then_get_matches {H : Type} (m : Store H) (v : Ptr) (h : H) :
    ((SetLastOperationFailed m v (some h)).1.cell
        (SetLastOperationFailed m v (some h)).2).GetLastOperationFailed = (some h, true) ∧
    ((SetClosed m v).1.cell (SetClosed m v).2).GetClosed = true ∧
    ((NewLastOperationFailed m (some h)).1.cell
        (NewLastOperationFailed m (some h)).2).GetLastOperationFailed = (some h, true) ∧
    ((NewClosed m).1.cell (NewClosed m).2).GetClosed = true ∧
    ((SetLastOperationFailed m v none).1.cell
        (SetLastOperationFailed m v none).2).GetLastOperationFailed = (none, false) ∧
    ((NewLastOperationFailed m none).1.cell
        (NewLastOperationFailed m none).2).GetLastOperationFailed = (none, false) := by
  simp [SetLastOperationFailed, SetClosed, NewLastOperationFailed, NewClosed, Store.assign,
    Store.alloc, StreamError.GetLastOperationFailed, StreamError.GetClosed, Error.toAny,
    AnyVal.assertError]

/-- C6: on every `StreamError` value, whatever its discriminant byte and
payload, the getters return without failing (they are total) and match at
most one case: `GetLastOperationFailed` reports `ok = true` only when the
discriminant is `LastOperationFailed`, `GetClosed` reports `true` only when it
is `Closed`, each reports `false` when the active case differs, and the two
never report `true` together. -/
theorem get_matches_at_most_one_case {H : Type} (v : StreamError H) :
    (v.GetLastOperationFailed.2 = true →
      v.discriminant = StreamErrorDiscriminant_LastOperationFailed) ∧
    (v.GetClosed = true → v.discriminant = StreamErrorDiscriminant_Closed) ∧
    (v.discriminant ≠ StreamErrorDiscriminant_LastOperationFailed →
      v.GetLastOperationFailed = (none, false)) ∧
    (v.discriminant ≠ StreamErrorDiscriminant_Closed → v.GetClosed = false) ∧
    (v.GetLastOperationFailed.2 && v.GetClosed) = false := by
  obtain ⟨payload, d⟩ := v
  by_cases h0 : d = StreamErrorDiscriminant_LastOperationFailed
  · subst h0
    simp [StreamError.GetLastOperationFailed, StreamError.GetClosed,
      StreamErrorDiscriminant_LastOperationFailed, StreamErrorDiscriminant_Closed]
  · simp [StreamError.GetLastOperationFailed, StreamError.GetClosed, h0]

/-- Witness for C6: a `LastOperationFailed` value holding the cause `3`
matches its own case and not `Closed`. -/
theorem get_matches_at_most_one_case_witness :
    (⟨AnyVal.error 3, StreamErrorDiscriminant_LastOperationFailed⟩ :
        StreamError Nat).GetLastOperationFailed = (some 3, true) ∧
    (⟨AnyVal.error 3, StreamErrorDiscriminant_LastOperationFailed⟩ :
        StreamError Nat).GetClosed = false :=
  ⟨rfl, (get_matches_at_most_one_case
    (⟨AnyVal.error 3, StreamErrorDiscriminant_LastOperationFailed⟩ : StreamError Nat)).2.2.2.1
      (by decide)⟩

/-- C7: a setter turns the cell it is called on into its case and replaces
any prior payload. After `v.SetClosed()` the returned pointer is `v`,
`Discriminant()` is `Closed` (1), the payload is nil and
`GetLastOperationFailed` no longer yields a cause; after
`v.SetLastOperationFailed(p)` the returned pointer is `v`, `Discriminant()` is
`LastOperationFailed` (0) and the stored payload is `p`. No other cell of the
store changes and nothing is allocated. -/
theorem set_case_replaces {H : Type} (m : Store H) (v : Ptr) (p : Error H) :
    (SetClosed m v).2 = v ∧
    ((SetClosed m v).1.cell v).Discriminant = StreamErrorDiscriminant_Closed ∧
    ((SetClosed m v).1.cell v).Discriminant.val = 1 ∧
    ((SetClosed m v).1.cell v).payload = AnyVal.nil ∧
    ((SetClosed m v).1.cell v).GetLastOperationFailed = (none, false) ∧
    (SetClosed m v).1.next = m.next ∧
    (∀ q : Ptr, (SetClosed m v).1.cell q =
      if q = v then { payload := AnyVal.nil, discriminant := StreamErrorDiscriminant_Closed }
      else m.cell q) ∧
    (SetLastOperationFailed m v p).2 = v ∧
    ((SetLastOperationFailed m v p).1.cell v).Discriminant =
      StreamErrorDiscriminant_LastOperationFailed ∧
    ((SetLastOperationFailed m v p).1.cell v).Discriminant.val = 0 ∧
    ((SetLastOperationFailed m v p).1.cell v).payload = Error.toAny p ∧
    (SetLastOperationFailed m v p).1.next = m.next ∧
    (∀ q : Ptr, (SetLastOperationFailed m v p).1.cell q =
      if q = v then { payload := Error.toAny p,
                      discriminant := StreamErrorDiscriminant_LastOperationFailed }
      else m.cell q) := by
  simp [SetLastOperationFailed, SetClosed, Store.assign, StreamError.Discriminant,
    StreamError.GetLastOperationFailed, StreamErrorDiscriminant_Closed,
    StreamErrorDiscriminant_LastOperationFailed]
  constructor <;> intro q <;> by_cases hq : q = v <;> simp [hq]

/-- C8: `String()` returns "last-operation-failed" when the discriminant is
0 and "closed" when it is 1, and panics exactly when the discriminant is
neither; `Error()` gives the same outcome as `String()` on every value. -/
theorem display_name {H : Type} (v : StreamError H) :
    (v.discriminant = StreamErrorDiscriminant_LastOperationFailed →
      v.String = Outcome.ret "last-operation-failed") ∧
    (v.discriminant = StreamErrorDiscriminant_Closed → v.String = Outcome.ret "closed") ∧
    ((∃ msg, v.String = Outcome.panicked msg) ↔
      (v.discriminant ≠ StreamErrorDiscriminant_LastOperationFailed ∧
       v.discriminant ≠ StreamErrorDiscriminant_Closed)) ∧
    v.String ≠ Outcome.outOfFuel ∧
    v.Error = v.String := by
  obtain ⟨payload, d⟩ := v
  by_cases h0 : d = StreamErrorDiscriminant_LastOperationFailed
  · subst h0
    simp [StreamError.String, StreamError.Error, StreamErrorDiscriminant_LastOperationFailed,
      StreamErrorDiscriminant_Closed]
  · by_cases h1 : d = StreamErrorDiscriminant_Closed
    · subst h1
      simp [StreamError.String, StreamError.Error, StreamErrorDiscriminant_LastOperationFailed,
        StreamErrorDiscriminant_Closed]
    · simp [StreamError.String, StreamError.Error, h0, h1]

/-- Witness for C8: the names of the two declared cases and the panic on the
undeclared discriminant 2. -/
theorem display_name_witness :
    (⟨AnyVal.nil, 1⟩ : StreamError Nat).String = Outcome.ret "closed" ∧
    (⟨AnyVal.nil, 0⟩ : StreamError Nat).String = Outcome.ret "last-operation-failed" ∧
    (∃ msg, (⟨AnyVal.nil, 2⟩ : StreamError Nat).String = Outcome.panicked msg) :=
  ⟨(display_name (⟨AnyVal.nil, 1⟩ : StreamError Nat)).2.1 rfl,
   (display_name (⟨AnyVal.nil, 0⟩ : StreamError Nat)).1 rfl,
   (display_name (⟨AnyVal.nil, 2⟩ : StreamError Nat)).2.2.1.mpr ⟨by decide, by decide⟩⟩

/-- C9, counterexample: the zero value `StreamError{}` (discriminant 0, nil
payload) written to an empty appending writer. `WriteToIndex` returns the
non-nil error "invalid payload", yet the writer now holds the byte `0x00`. -/
theorem encode_error_after_write :
    (StreamError.zero Nat).WriteToIndex bufferWriter pathIndexWriter [] =
      Outcome.ret ([0], none, some (GoError.new "invalid payload")) := by
  simp only [StreamError.WriteToIndex, StreamError.zero]
  rw [writeDiscriminant_uint8]
  simp [StreamErrorDiscriminant_LastOperationFailed, AnyVal.assertError, bufferWriter]

/-- C9, amended: when `WriteToIndex(w)` returns a non-nil error, `w` has
received exactly one `Write` call, carrying the bytes of the discriminant, and
nothing after it, and no deferred writer is returned. Either that `Write`
failed, the error wraps its error as "failed to write discriminant" and `w` is
as the failed `Write` left it; or it succeeded, the discriminant bytes stay
written, and the error is one of "invalid payload", "failed to write payload:
writing owned handles not supported yet" and "invalid variant". -/
theorem encode_failure_effect {H σ ι : Type} (W : ByteWriter σ) (I : IndexWriter ι)
    (v : StreamError H) (w w1 : σ) (f : Option (DeferredWriter ι)) (e : GoError)
    (hret : v.WriteToIndex W I w = Outcome.ret (w1, f, some e)) :
    w1 = (W.Write w (if v.discriminant.val < 128 then [v.discriminant.val]
        else [v.discriminant.val % 128 + 128, v.discriminant.val / 128])).1 ∧
    f = none ∧
    ((∃ e0, (W.Write w (if v.discriminant.val < 128 then [v.discriminant.val]
          else [v.discriminant.val % 128 + 128, v.discriminant.val / 128])).2.2 = some e0 ∧
        e = GoError.errorf "failed to write discriminant" e0) ∨
     ((W.Write w (if v.discriminant.val < 128 then [v.discriminant.val]
          else [v.discriminant.val % 128 + 128, v.discriminant.val / 128])).2.2 = none ∧
        (e = GoError.new "invalid payload" ∨
         e = GoError.errorf "failed to write payload"
              (GoError.new "writing owned handles not supported yet") ∨
         e = GoError.new "invalid variant"))) := by
  simp only [StreamError.WriteToIndex] at hret
  rw [writeDiscriminant_uint8] at hret
  generalize W.Write w (if v.discriminant.val < 128 then [v.discriminant.val]
        else [v.discriminant.val % 128 + 128, v.discriminant.val / 128]) = r at hret ⊢
  obtain ⟨r1, n, re⟩ := r
  cases re with
  | some e0 =>
    simp only [Outcome.ret.injEq, Prod.mk.injEq, Option.some.injEq] at hret
    obtain ⟨h1, h2, h3⟩ := hret
    exact ⟨h1.symm, h2.symm, Or.inl ⟨e0, rfl, h3.symm⟩⟩
  | none =>
    simp only at hret
    split at hret
    · split at hret
      · simp only [Outcome.ret.injEq, Prod.mk.injEq, Option.some.injEq] at hret
        obtain ⟨h1, h2, h3⟩ := hret
        exact ⟨h1.symm, h2.symm, Or.inr ⟨rfl, Or.inl h3.symm⟩⟩
      · simp only [Outcome.ret.injEq, Prod.mk.injEq, Option.some.injEq] at hret
        obtain ⟨h1, h2, h3⟩ := hret
        exact ⟨h1.symm, h2.symm, Or.inr ⟨rfl, Or.inr (Or.inl h3.symm)⟩⟩
    · split at hret
      · simp at hret
      · simp only [Outcome.ret.injEq, Prod.mk.injEq, Option.some.injEq] at hret
        obtain ⟨h1, h2, h3⟩ := hret
        exact ⟨h1.symm, h2.symm, Or.inr ⟨rfl, Or.inr (Or.inr h3.symm)⟩⟩

/-- The undeclared discriminant 2 is written before it is rejected. -/
theorem WriteToIndex_undeclared :
    (⟨AnyVal.nil, 2⟩ : StreamError Nat).WriteToIndex bufferWriter pathIndexWriter [9] =
      Outcome.ret ([9, 2], none, some (GoError.new "invalid variant")) := by
  simp only [StreamError.WriteToIndex]
  rw [writeDiscriminant_uint8]
  simp [StreamErrorDiscriminant_LastOperationFailed, StreamErrorDiscriminant_Closed,
    bufferWriter]

/-- Witness for the amended C9: a value with the undeclared discriminant 2,
written to an appending writer that holds `[9]`; the call fails with "invalid
variant" and the writer holds `[9, 2]`. -/
theorem encode_failure_effect_witness :
    (⟨AnyVal.nil, 2⟩ : StreamError Nat).WriteToIndex bufferWriter pathIndexWriter [9] =
      Outcome.ret ([9, 2], none, some (GoError.new "invalid variant")) ∧
    [9, 2] = [9] ++ [2] ∧ (none : Option (DeferredWriter (List Nat))) = none :=
  ⟨WriteToIndex_undeclared,
   (encode_failure_effect bufferWriter pathIndexWriter (⟨AnyVal.nil, 2⟩ : StreamError Nat)
      [9] [9, 2] none (GoError.new "invalid variant") WriteToIndex_undeclared).1,
   (encode_failure_effect bufferWriter pathIndexWriter (⟨AnyVal.nil, 2⟩ : StreamError Nat)
      [9] [9, 2] none (GoError.new "invalid variant") WriteToIndex_undeclared).2.1⟩

/-- C10, counterexample: a `LastOperationFailed` value holding the `Error`
handle `5`, written to an empty appending writer: `WriteToIndex` returns no
deferred writer and a non-nil error. -/
theorem lastOperationFailed_returns_no_writer :
    (⟨AnyVal.error 5, StreamErrorDiscriminant_LastOperationFailed⟩ :
        StreamError Nat).WriteToIndex bufferWriter pathIndexWriter [] =
      Outcome.ret ([0], none,
        some (GoError.errorf "failed to write payload"
          (GoError.new "writing owned handles not supported yet"))) :=
  WriteToIndex_lastOperationFailed bufferWriter pathIndexWriter _ 5 [] rfl rfl rfl

/-- C10, amended: for a `StreamError` whose active case is
`LastOperationFailed` with a payload of the declared `Error` type, and a
writer that accepts the discriminant byte `0x00`, `WriteToIndex` obtains no
deferred writer: the payload encoder reports "writing owned handles not
supported yet", and the call returns a nil deferred writer with the error
"failed to write payload: writing owned handles not supported yet". The
wrapper the code keeps for a non-nil payload writer behaves as described: run
on `w` it calls `w.Index(0)` first, returns "failed to index writer" wrapping
the indexing error without delegating when that fails, and otherwise
delegates to the payload writer on the child writer. -/
theorem lastOperationFailed_payload_unsupported {H σ ι : Type} (W : ByteWriter σ)
    (I : IndexWriter ι) (v : StreamError H) (h : H) (w : σ)
    (hd : v.discriminant = StreamErrorDiscriminant_LastOperationFailed)
    (hp : v.payload = AnyVal.error h) (hw : (W.Write w [0]).2.2 = none) :
    v.WriteToIndex W I w =
      Outcome.ret ((W.Write w [0]).1, none,
        some (GoError.errorf "failed to write payload"
          (GoError.new "writing owned handles not supported yet"))) ∧
    (∀ (write : DeferredWriter ι) (wi : ι),
      (∀ err, I.Index wi 0 = Except.error err →
        indexThenWrite I write wi =
          (wi, some (GoError.errorf "failed to index writer" err))) ∧
      (∀ child, I.Index wi 0 = Except.ok child →
        indexThenWrite I write wi = write child)) := by
  refine ⟨WriteToIndex_lastOperationFailed W I v h w hd hp hw, ?_⟩
  intro write wi
  constructor
  · intro err herr
    simp [indexThenWrite, herr]
  · intro child hchild
    simp [indexThenWrite, hchild]

/-- Witness for the amended C10: the value holding the handle `5`, on an
empty appending writer. -/
theorem lastOperationFailed_payload_unsupported_witness :
    (⟨AnyVal.error 5, StreamErrorDiscriminant_LastOperationFailed⟩ :
        StreamError Nat).WriteToIndex bufferWriter pathIndexWriter [] =
      Outcome.ret ([0], none,
        some (GoError.errorf "failed to write payload"
          (GoError.new "writing owned handles not supported yet"))) :=
  (lastOperationFailed_payload_unsupported bufferWriter pathIndexWriter
    (⟨AnyVal.error 5, StreamErrorDiscriminant_LastOperationFailed⟩ : StreamError Nat)
    5 [] rfl rfl rfl).1

/-! ## The variant invariant -/

/-- The cells of the store after `SetLastOperationFailed`. -/
theorem SetLastOperationFailed_cell {H : Type} (m : Store H) (v : Ptr) (p : Error H)
    (q : Ptr) :
    (SetLastOperationFailed m v p).1.cell q =
      if q = v then { payload := Error.toAny p,
                      discriminant := StreamErrorDiscriminant_LastOperationFailed }
      else m.cell q := by
  by_cases hq : q = v <;> simp [SetLastOperationFailed, Store.assign, hq]

/-- The cells of the store after `SetClosed`. -/
theorem SetClosed_cell {H : Type} (m : Store H) (v : Ptr) (q : Ptr) :
    (SetClosed m v).1.cell q =
      if q = v then { payload := AnyVal.nil, discriminant := StreamErrorDiscriminant_Closed }
      else m.cell q := by
  by_cases hq : q = v <;> simp [SetClosed, Store.assign, hq]

/-- The cells of the store after `NewLastOperationFailed`. -/
theorem NewLastOperationFailed_cell {H : Type} (m : Store H) (p : Error H) (q : Ptr) :
    (NewLastOperationFailed m p).1.cell q =
      if q = m.next then { payload := Error.toAny p,
                           discriminant := StreamErrorDiscriminant_LastOperationFailed }
      else m.cell q := by
  by_cases hq : q = m.next <;>
    simp [NewLastOperationFailed, SetLastOperationFailed, Store.assign, Store.alloc, hq]

/-- The cells of the store after `NewClosed`. -/
theorem NewClosed_cell {H : Type} (m : Store H) (q : Ptr) :
    (NewClosed m).1.cell q =
      if q = m.next then { payload := AnyVal.nil,
                           discriminant := StreamErrorDiscriminant_Closed }
      else m.cell q := by
  by_cases hq : q = m.next <;> simp [NewClosed, SetClosed, Store.assign, Store.alloc, hq]

/-- One call keeps every cell in one of the two declared shapes: discriminant
`LastOperationFailed`, or discriminant `Closed` with a nil payload. -/
theorem ApiCall.run_shape {H : Type} (m : Store H) (c : ApiCall H)
    (hm : ∀ q, (m.cell q).discriminant = StreamErrorDiscriminant_LastOperationFailed ∨
      ((m.cell q).discriminant = StreamErrorDiscriminant_Closed ∧
        (m.cell q).payload = AnyVal.nil)) (q : Ptr) :
    ((ApiCall.run m c).cell q).discriminant = StreamErrorDiscriminant_LastOperationFailed ∨
      (((ApiCall.run m c).cell q).discriminant = StreamErrorDiscriminant_Closed ∧
        ((ApiCall.run m c).cell q).payload = AnyVal.nil) := by
  cases c with
  | SetLastOperationFailed v p =>
    simp only [ApiCall.run, SetLastOperationFailed_cell]
    by_cases hq : q = v
    · simp [hq]
    · simpa [hq] using hm q
  | SetClosed v =>
    simp only [ApiCall.run, SetClosed_cell]
    by_cases hq : q = v
    · simp [hq]
    · simpa [hq] using hm q
  | NewLastOperationFailed p =>
    simp only [ApiCall.run, NewLastOperationFailed_cell]
    by_cases hq : q = m.next
    · simp [hq]
    · simpa [hq] using hm q
  | NewClosed =>
    simp only [ApiCall.run, NewClosed_cell]
    by_cases hq : q = m.next
    · simp [hq]
    · simpa [hq] using hm q

/-- Any sequence of calls keeps every cell in one of the two declared shapes. -/
theorem runCalls_shape {H : Type} (calls : List (ApiCall H)) :
    ∀ m : Store H,
      (∀ q, (m.cell q).discriminant = StreamErrorDiscriminant_LastOperationFailed ∨
        ((m.cell q).discriminant = StreamErrorDiscriminant_Closed ∧
          (m.cell q).payload = AnyVal.nil)) →
      ∀ q, ((runCalls m calls).cell q).discriminant =
          StreamErrorDiscriminant_LastOperationFailed ∨
        (((runCalls m calls).cell q).discriminant = StreamErrorDiscriminant_Closed ∧
          ((runCalls m calls).cell q).payload = AnyVal.nil) := by
  induction calls with
  | nil => intro m hm q; exact hm q
  | cons c rest ih =>
    intro m hm q
    exact ih (ApiCall.run m c) (fun r => ApiCall.run_shape m c hm r) q

/-- C11: starting from memory in which every `StreamError` is the zero value,
after any sequence of `NewLastOperationFailed`, `NewClosed`,
`SetLastOperationFailed` and `SetClosed` calls, on any receivers and with any
payloads, every cell has a discriminant in the declared set {0, 1}, carries a
nil payload whenever its case is `Closed`, has exactly one active case (its
discriminant is one of the two and not both, and the two getters never both
match), and `String()` returns one of the two names instead of panicking. -/
theorem variant_invariant {H : Type} (m : Store H) (calls : List (ApiCall H))
    (hzero : ∀ q, m.cell q = StreamError.zero H) (q : Ptr) :
    (((runCalls m calls).cell q).discriminant.val = 0 ∨
      ((runCalls m calls).cell q).discriminant.val = 1) ∧
    (((runCalls m calls).cell q).discriminant = StreamErrorDiscriminant_Closed →
      ((runCalls m calls).cell q).payload = AnyVal.nil) ∧
    ((((runCalls m calls).cell q).discriminant =
        StreamErrorDiscriminant_LastOperationFailed ∧
      ((runCalls m calls).cell q).discriminant ≠ StreamErrorDiscriminant_Closed) ∨
     (((runCalls m calls).cell q).discriminant ≠
        StreamErrorDiscriminant_LastOperationFailed ∧
      ((runCalls m calls).cell q).discriminant = StreamErrorDiscriminant_Closed)) ∧
    (((runCalls m calls).cell q).GetLastOperationFailed.2 &&
      ((runCalls m calls).cell q).GetClosed) = false ∧
    (((runCalls m calls).cell q).String = Outcome.ret "last-operation-failed" ∨
      ((runCalls m calls).cell q).String = Outcome.ret "closed") := by
  have hm : ∀ r, (m.cell r).discriminant = StreamErrorDiscriminant_LastOperationFailed ∨
      ((m.cell r).discriminant = StreamErrorDiscriminant_Closed ∧
        (m.cell r).payload = AnyVal.nil) := by
    intro r
    rw [hzero r]
    exact Or.inl rfl
  have hshape := runCalls_shape calls m hm q
  generalize (runCalls m calls).cell q = x at hshape ⊢
  obtain ⟨payload, d⟩ := x
  rcases hshape with h0 | ⟨h1, hp⟩
  · simp only at h0
    subst h0
    simp [StreamError.String, StreamError.GetLastOperationFailed, StreamError.GetClosed,
      StreamErrorDiscriminant_LastOperationFailed, StreamErrorDiscriminant_Closed]
  · simp only at h1 hp
    subst h1 hp
    simp [StreamError.String, StreamError.GetLastOperationFailed, StreamError.GetClosed,
      StreamErrorDiscriminant_LastOperationFailed, StreamErrorDiscriminant_Closed]

/-- Witness for C11: in memory of zero values, build a value with
`NewLastOperationFailed(4)` at address 0, then call `SetClosed` and
`SetLastOperationFailed(nil)` on it and `SetClosed` on the cell at address 3;
the cell at address 0 ends in the case `LastOperationFailed` and the cell at
address 3 is named "closed". -/
theorem variant_invariant_witness :
    ((runCalls emptyStore
        [ApiCall.NewLastOperationFailed (some 4), ApiCall.SetClosed 0,
         ApiCall.SetLastOperationFailed 0 none, ApiCall.SetClosed 3]).cell 0).String =
      Outcome.ret "last-operation-failed" ∧
    (((runCalls emptyStore
        [ApiCall.NewLastOperationFailed (some 4), ApiCall.SetClosed 0,
         ApiCall.SetLastOperationFailed 0 none, ApiCall.SetClosed 3]).cell 3).discriminant =
        StreamErrorDiscriminant_Closed →
      ((runCalls emptyStore
        [ApiCall.NewLastOperationFailed (some 4), ApiCall.SetClosed 0,
         ApiCall.SetLastOperationFailed 0 none, ApiCall.SetClosed 3]).cell 3).payload =
        AnyVal.nil) :=
  ⟨by decide,
   (variant_invariant emptyStore
      [ApiCall.NewLastOperationFailed (some 4), ApiCall.SetClosed 0,
       ApiCall.SetLastOperationFailed 0 none, ApiCall.SetClosed 3]
      (fun _ => rfl) 3).2.1⟩

/-- C14: `WriteToIndex` always returns, and never returns a deferred writer.
Its error is nil exactly when the discriminant is `Closed` and the writer
accepted the discriminant bytes; when the `Write` fails, when the case is
`LastOperationFailed` (with a payload of type `Error` or without), and when
the discriminant is outside {0, 1}, the error is non-nil. -/
theorem WriteToIndex_error_iff {H σ ι : Type} (W : ByteWriter σ) (I : IndexWriter ι)
    (v : StreamError H) (w : σ) :
    ∃ (w1 : σ) (e : Option GoError),
      v.WriteToIndex W I w = Outcome.ret (w1, none, e) ∧
      (e = none ↔
        (v.discriminant = StreamErrorDiscriminant_Closed ∧
         (W.Write w (if v.discriminant.val < 128 then [v.discriminant.val]
            else [v.discriminant.val % 128 + 128, v.discriminant.val / 128])).2.2 = none)) ∧
      ((W.Write w (if v.discriminant.val < 128 then [v.discriminant.val]
            else [v.discriminant.val % 128 + 128, v.discriminant.val / 128])).2.2 ≠ none →
        e ≠ none) ∧
      (v.discriminant = StreamErrorDiscriminant_LastOperationFailed → e ≠ none) ∧
      (v.discriminant ≠ StreamErrorDiscriminant_LastOperationFailed →
        v.discriminant ≠ StreamErrorDiscriminant_Closed → e ≠ none) := by
  simp only [StreamError.WriteToIndex]
  rw [writeDiscriminant_uint8]
  generalize W.Write w (if v.discriminant.val < 128 then [v.discriminant.val]
        else [v.discriminant.val % 128 + 128, v.discriminant.val / 128]) = r
  obtain ⟨r1, n, re⟩ := r
  obtain ⟨payload, d⟩ := v
  cases re with
  | some e0 => exact ⟨r1, _, rfl, by simp⟩
  | none =>
    by_cases h0 : d = StreamErrorDiscriminant_LastOperationFailed
    · subst h0
      cases hp : (AnyVal.assertError payload).2
      · refine ⟨r1, some (GoError.new "invalid payload"), ?_, ?_⟩
        · simp [hp]
        · simp [StreamErrorDiscriminant_LastOperationFailed, StreamErrorDiscriminant_Closed]
      · refine ⟨r1, some (GoError.errorf "failed to write payload"
          (GoError.new "writing owned handles not supported yet")), ?_, ?_⟩
        · simp [hp]
        · simp [StreamErrorDiscriminant_LastOperationFailed, StreamErrorDiscriminant_Closed]
    · by_cases h1 : d = StreamErrorDiscriminant_Closed
      · subst h1
        refine ⟨r1, none, ?_, ?_⟩
        · simp [StreamErrorDiscriminant_LastOperationFailed, StreamErrorDiscriminant_Closed]
        · simp [StreamErrorDiscriminant_LastOperationFailed, StreamErrorDiscriminant_Closed]
      · refine ⟨r1, some (GoError.new "invalid variant"), ?_, ?_⟩
        · simp [h0, h1]
        · simp [h0, h1]

/-! ## Terminality of `Closed` -/

/-- A sub-operation that reports `Closed` leaves the stream closed. -/
theorem StreamState.step_closed (s : StreamState) (ev : StreamEvent)
    (h : (s.step ev).2 = StreamResult.closed) : (s.step ev).1 = StreamState.closed := by
  cases s <;> cases ev <;> simp_all [StreamState.step]

/-- A closed stream stays closed under any sub-operation on any stream. -/
theorem perform_closed (rs : Resources) (id : Nat) (ev : StreamEvent) (c : Nat)
    (hc : rs c = StreamState.closed) : (perform rs id ev).1 c = StreamState.closed := by
  by_cases h : c = id
  · subst h
    simp [perform, hc, StreamState.step]
  · simp [perform, h, hc]

/-- A closed stream stays closed under any run of sub-operations. -/
theorem performAll_closed (events : Nat → StreamEvent) (targets : List Nat) :
    ∀ (rs : Resources) (k : Nat) (last : StreamResult) (c : Nat),
      rs c = StreamState.closed →
      (performAll events rs k targets last).1 c = StreamState.closed := by
  induction targets with
  | nil => intro rs k last c hc; simpa [performAll] using hc
  | cons id rest ih =>
    intro rs k last c hc
    have hp := perform_closed rs id (events k) c hc
    simp only [performAll]
    split
    · exact ih _ _ _ c hp
    · exact hp
    · exact hp

/-- A run of sub-operations that reports `Closed` has closed one of its
targets. -/
theorem performAll_result_closed (events : Nat → StreamEvent) (targets : List Nat) :
    ∀ (rs : Resources) (k : Nat) (last : StreamResult),
      last ≠ StreamResult.closed →
      (performAll events rs k targets last).2 = StreamResult.closed →
      ∃ c ∈ targets, (performAll events rs k targets last).1 c = StreamState.closed := by
  induction targets with
  | nil =>
    intro rs k last hlast h
    simp [performAll] at h
    exact absurd h hlast
  | cons id rest ih =>
    intro rs k last _ h
    simp only [performAll] at h ⊢
    split at h
    · rename_i count hres
      obtain ⟨c, hc, hcl⟩ := ih (perform rs id (events k)).1 (k + 1) (StreamResult.ok count)
        (by simp) h
      exact ⟨c, List.mem_cons_of_mem id hc, hcl⟩
    · simp at h
    · rename_i hres
      refine ⟨id, List.mem_cons_self id rest, ?_⟩
      have := StreamState.step_closed (rs id) (events k) (by simpa [perform] using hres)
      simp [perform, this]

/-- Sub-operations that start on a closed stream report `Closed`. -/
theorem performAll_head_closed (events : Nat → StreamEvent) (rs : Resources) (k id : Nat)
    (rest : List Nat) (last : StreamResult) (hc : rs id = StreamState.closed) :
    (performAll events rs k (id :: rest) last).2 = StreamResult.closed := by
  have h : (perform rs id (events k)).2 = StreamResult.closed := by
    simp [perform, hc, StreamState.step]
  simp only [performAll]
  rw [h]

/-- Every operation starts with a sub-operation on the stream it is called
on. -/
theorem StreamOp.targets_head (op : StreamOp) (self rounds : Nat) :
    ∃ rest, op.targets self rounds = self :: rest := by
  cases op <;> simp [StreamOp.targets, List.replicate_succ]

/-- The targets of an operation are the stream itself and, for a splice, its
source. -/
theorem StreamOp.targets_mem (op : StreamOp) (self rounds c : Nat)
    (h : c ∈ op.targets self rounds) : c = self ∨ op.source = some c := by
  cases op <;> simp [StreamOp.targets, StreamOp.source] at h ⊢ <;> first
    | exact h
    | exact h.2
    | (rcases h with h | h | h <;> simp [h])

/-- Every call on a closed stream returns `Closed`. -/
theorem StreamStep.run_of_closed (rs : Resources) (st : StreamStep)
    (hc : rs st.self = StreamState.closed) : (st.run rs).2 = StreamResult.closed := by
  obtain ⟨rest, hrest⟩ := st.op.targets_head st.self st.rounds
  simp only [StreamStep.run, hrest]
  exact performAll_head_closed st.events rs 0 st.self rest _ hc

/-- Once a stream is closed, every later call on it returns `Closed`. -/
theorem runSteps_of_closed (steps : List StreamStep) :
    ∀ (rs : Resources) (c : Nat), rs c = StreamState.closed →
      ∀ (j : Nat) (sj : StreamStep), steps[j]? = some sj → sj.self = c →
        (runSteps rs steps)[j]? = some StreamResult.closed := by
  induction steps with
  | nil => intro rs c _ j sj hj; simp at hj
  | cons st rest ih =>
    intro rs c hc j sj hj hself
    cases j with
    | zero =>
      simp only [List.getElem?_cons_zero, Option.some.injEq] at hj
      subst hj
      simp only [runSteps, List.getElem?_cons_zero, Option.some.injEq]
      exact StreamStep.run_of_closed rs st (by rw [hself]; exact hc)
    | succ j =>
      simp only [List.getElem?_cons_succ] at hj
      simp only [runSteps, List.getElem?_cons_succ]
      exact ih (st.run rs).1 c (performAll_closed st.events _ rs 0 _ c hc) j sj hj hself

/-- After a call that returned `Closed`, one stream is closed for good: the
stream the call was made on, or the source of the splice. -/
theorem runSteps_closed_from (steps : List StreamStep) :
    ∀ (rs : Resources) (i : Nat) (si : StreamStep), steps[i]? = some si →
      (runSteps rs steps)[i]? = some StreamResult.closed →
      ∃ c, (c = si.self ∨ si.op.source = some c) ∧
        ∀ (j : Nat) (sj : StreamStep), i < j → steps[j]? = some sj → sj.self = c →
          (runSteps rs steps)[j]? = some StreamResult.closed := by
  induction steps with
  | nil => intro rs i si hi; simp at hi
  | cons st rest ih =>
    intro rs i si hi hres
    cases i with
    | zero =>
      simp only [List.getElem?_cons_zero, Option.some.injEq] at hi
      subst hi
      simp only [runSteps, List.getElem?_cons_zero, Option.some.injEq] at hres
      obtain ⟨c, hmem, hclosed⟩ :=
        performAll_result_closed st.events (st.op.targets st.self st.rounds) rs 0
          (StreamResult.ok 0) (by simp) hres
      refine ⟨c, StreamOp.targets_mem st.op st.self st.rounds c hmem, ?_⟩
      intro j sj hij hj hself
      cases j with
      | zero => omega
      | succ j =>
        simp only [List.getElem?_cons_succ] at hj
        simp only [runSteps, List.getElem?_cons_succ]
        exact runSteps_of_closed rest (st.run rs).1 c hclosed j sj hj hself
    | succ i =>
      simp only [List.getElem?_cons_succ] at hi
      simp only [runSteps, List.getElem?_cons_succ] at hres
      obtain ⟨c, hc, hlater⟩ := ih (st.run rs).1 i si hi hres
      refine ⟨c, hc, ?_⟩
      intro j sj hij hj hself
      cases j with
      | zero => omega
      | succ j =>
        simp only [List.getElem?_cons_succ] at hj
        simp only [runSteps, List.getElem?_cons_succ]
        exact hlater j sj (by omega) hj hself

/-- C12, counterexample: an open output stream (handle 0) and a closed input
stream (handle 1). `Splice(src, 10)` on the output stream gets a permit from
check-write, then the read on the source reports `Closed`, which ends the
splice and is returned; the output stream is still open, and the following
`CheckWrite` on it returns the permit 5, not `Closed`. -/
theorem splice_closed_source_then_permit :
    runSteps closedSourceOnly
      [{ self := 0, op := StreamOp.Splice 1 10, rounds := 0,
         events := fun _ => StreamEvent.completes 5 true },
       { self := 0, op := StreamOp.CheckWrite, rounds := 0,
         events := fun _ => StreamEvent.completes 5 true }] =
      [StreamResult.closed, StreamResult.ok 5] := by
  decide

/-- C12, amended: once an operation other than a splice has returned `Closed`
on a stream, every later operation on that stream, splices included, returns
`Closed` (a `CheckWrite` after a `Write` that returned `Closed` returns
`Closed`, not a permit). Once any operation, a splice included, has returned
`Closed`, some stream returns `Closed` on every later operation: the stream
the operation was called on, or the source stream of the splice. -/
theorem closed_is_terminal (rs : Resources) (steps : List StreamStep) (i : Nat)
    (si : StreamStep) (hi : steps[i]? = some si)
    (hres : (runSteps rs steps)[i]? = some StreamResult.closed) :
    (si.op.source = none →
      ∀ (j : Nat) (sj : StreamStep), i < j → steps[j]? = some sj → sj.self = si.self →
        (runSteps rs steps)[j]? = some StreamResult.closed) ∧
    (∃ c, (c = si.self ∨ si.op.source = some c) ∧
      ∀ (j : Nat) (sj : StreamStep), i < j → steps[j]? = some sj → sj.self = c →
        (runSteps rs steps)[j]? = some StreamResult.closed) := by
  obtain ⟨c, hc, hlater⟩ := runSteps_closed_from steps rs i si hi hres
  refine ⟨?_, c, hc, hlater⟩
  intro hsrc j sj hij hj hself
  rcases hc with hc | hc
  · exact hlater j sj hij hj (by rw [hself, hc])
  · rw [hsrc] at hc
    simp at hc

/-- Witness for the amended C12: on a ready stream, a `Write` that completes,
a `Write` during which the stream closes, then a `CheckWrite` that would have
been granted a permit of 5: the second result is `Closed`, and so is the
third. -/
theorem closed_is_terminal_witness :
    (runSteps allReady
      [{ self := 0, op := StreamOp.Write [1], rounds := 0,
         events := fun _ => StreamEvent.completes 0 true },
       { self := 0, op := StreamOp.Write [2], rounds := 0,
         events := fun _ => StreamEvent.closes },
       { self := 0, op := StreamOp.CheckWrite, rounds := 0,
         events := fun _ => StreamEvent.completes 5 true }])[2]? =
      some StreamResult.closed :=
  (closed_is_terminal allReady
    [{ self := 0, op := StreamOp.Write [1], rounds := 0,
       events := fun _ => StreamEvent.completes 0 true },
     { self := 0, op := StreamOp.Write [2], rounds := 0,
       events := fun _ => StreamEvent.closes },
     { self := 0, op := StreamOp.CheckWrite, rounds := 0,
       events := fun _ => StreamEvent.completes 5 true }]
    1 { self := 0, op := StreamOp.Write [2], rounds := 0,
        events := fun _ => StreamEvent.closes }
    rfl (by decide)).1 rfl 2
    { self := 0, op := StreamOp.CheckWrite, rounds := 0,
      events := fun _ => StreamEvent.completes 5 true }
    (by decide) rfl rfl

/-! ## The drain loop of `BlockingWriteAndFlush` -/

/-- Unfolding of a round of the loop on non-empty contents. -/
theorem BlockingWriteAndFlush.rounds_cons (n : Nat) (permits contents : List Nat)
    (rs : List (Nat × List Nat)) (hc : contents.isEmpty = false)
    (h : BlockingWriteAndFlush.rounds (n :: permits) contents = some rs) :
    ∃ rs1, BlockingWriteAndFlush.rounds permits
        (contents.drop (min n contents.length)) = some rs1 ∧
      rs = (n, contents.take (min n contents.length)) :: rs1 := by
  simp only [BlockingWriteAndFlush.rounds, hc, Bool.false_eq_true, if_false,
    Option.map_eq_some'] at h
  obtain ⟨rs1, h1, h2⟩ := h
  exact ⟨rs1, h1, h2.symm⟩

/-- On empty contents the loop makes no round. -/
theorem BlockingWriteAndFlush.rounds_empty (permits contents : List Nat)
    (rs : List (Nat × List Nat)) (hc : contents.isEmpty = true)
    (h : BlockingWriteAndFlush.rounds permits contents = some rs) : rs = [] := by
  cases permits <;> simp [BlockingWriteAndFlush.rounds, hc] at h <;> exact h

/-- The permits of the rounds are the first permits received, in order. -/
theorem BlockingWriteAndFlush.rounds_permits (permits : List Nat) :
    ∀ (contents : List Nat) (rs : List (Nat × List Nat)),
      BlockingWriteAndFlush.rounds permits contents = some rs →
      rs.map Prod.fst = permits.take rs.length := by
  induction permits with
  | nil =>
    intro contents rs h
    by_cases hc : contents.isEmpty = true
    · simp [BlockingWriteAndFlush.rounds_empty [] contents rs hc h]
    · simp [BlockingWriteAndFlush.rounds, hc] at h
  | cons n permits ih =>
    intro contents rs h
    by_cases hc : contents.isEmpty = true
    · simp [BlockingWriteAndFlush.rounds_empty _ contents rs hc h]
    · obtain ⟨rs1, h1, h2⟩ :=
        BlockingWriteAndFlush.rounds_cons n permits contents rs (by simpa using hc) h
      subst h2
      simp [ih _ rs1 h1]

/-- The chunk of each round has length `min n remaining`, where `n` is the
permit of the round and `remaining` what the earlier rounds left. -/
theorem BlockingWriteAndFlush.rounds_chunk (permits : List Nat) :
    ∀ (contents : List Nat) (rs pre post : List (Nat × List Nat)) (r : Nat × List Nat),
      BlockingWriteAndFlush.rounds permits contents = some rs →
      rs = pre ++ r :: post →
      r.2.length = min r.1 (contents.length - (pre.map fun x => x.2.length).sum) := by
  induction permits with
  | nil =>
    intro contents rs pre post r h hsplit
    by_cases hc : contents.isEmpty = true
    · rw [BlockingWriteAndFlush.rounds_empty [] contents rs hc h] at hsplit
      simp at hsplit
    · simp [BlockingWriteAndFlush.rounds, hc] at h
  | cons n permits ih =>
    intro contents rs pre post r h hsplit
    by_cases hc : contents.isEmpty = true
    · rw [BlockingWriteAndFlush.rounds_empty _ contents rs hc h] at hsplit
      simp at hsplit
    · obtain ⟨rs1, h1, h2⟩ :=
        BlockingWriteAndFlush.rounds_cons n permits contents rs (by simpa using hc) h
      subst h2
      cases pre with
      | nil =>
        simp only [List.nil_append, List.cons.injEq] at hsplit
        obtain ⟨hr, _⟩ := hsplit
        subst hr
        simp [List.length_take]
      | cons p pre1 =>
        simp only [List.cons_append, List.cons.injEq] at hsplit
        obtain ⟨hp, hrest⟩ := hsplit
        subst hp
        have := ih _ rs1 pre1 post r h1 hrest
        simp only [List.length_drop] at this
        simp only [List.map_cons, List.sum_cons, List.length_take]
        omega

/-- The chunks of the rounds, concatenated, are the contents. -/
theorem BlockingWriteAndFlush.rounds_concat (permits : List Nat) :
    ∀ (contents : List Nat) (rs : List (Nat × List Nat)),
      BlockingWriteAndFlush.rounds permits contents = some rs →
      (rs.map Prod.snd).flatten = contents := by
  induction permits with
  | nil =>
    intro contents rs h
    by_cases hc : contents.isEmpty = true
    · rw [BlockingWriteAndFlush.rounds_empty [] contents rs hc h]
      simp only [List.isEmpty_iff] at hc
      simp [hc]
    · simp [BlockingWriteAndFlush.rounds, hc] at h
  | cons n permits ih =>
    intro contents rs h
    by_cases hc : contents.isEmpty = true
    · rw [BlockingWriteAndFlush.rounds_empty _ contents rs hc h]
      simp only [List.isEmpty_iff] at hc
      simp [hc]
    · obtain ⟨rs1, h1, h2⟩ :=
        BlockingWriteAndFlush.rounds_cons n permits contents rs (by simpa using hc) h
      subst h2
      simp [ih _ rs1 h1]

/-- With positive permits, one per byte at least, the loop ends. -/
theorem BlockingWriteAndFlush.rounds_ends (permits : List Nat) :
    ∀ contents : List Nat, (∀ n ∈ permits, 0 < n) → contents.length ≤ permits.length →
      ∃ rs, BlockingWriteAndFlush.rounds permits contents = some rs := by
  induction permits with
  | nil =>
    intro contents _ hlen
    have : contents = [] := List.length_eq_zero.mp (by simpa using hlen)
    subst this
    exact ⟨[], by simp [BlockingWriteAndFlush.rounds]⟩
  | cons n permits ih =>
    intro contents hpos hlen
    by_cases hc : contents.isEmpty = true
    · exact ⟨[], by simp [BlockingWriteAndFlush.rounds, hc]⟩
    · have hn : 0 < n := hpos n (List.mem_cons_self n permits)
      have hne : 0 < contents.length := by
        cases contents with
        | nil => simp at hc
        | cons a l => simp
      obtain ⟨rs1, h1⟩ := ih (contents.drop (min n contents.length))
        (fun k hk => hpos k (List.mem_cons_of_mem n hk))
        (by simp only [List.length_drop, List.length_cons] at hlen ⊢; omega)
      exact ⟨(n, contents.take (min n contents.length)) :: rs1, by
        simp [BlockingWriteAndFlush.rounds, hc, h1]⟩

/-- The chunks written by two sequences of calls, one after the other. -/
theorem writtenChunks_append (a b : List StreamCall) :
    writtenChunks (a ++ b) = writtenChunks a ++ writtenChunks b := by
  induction a with
  | nil => rfl
  | cons c rest ih => cases c <;> simp [writtenChunks, ih]

/-- The rounds write their chunks, in order. -/
theorem writtenChunks_rounds (rs : List (Nat × List Nat)) :
    writtenChunks (rs.map BlockingWriteAndFlush.roundCalls).flatten = rs.map Prod.snd := by
  induction rs with
  | nil => rfl
  | cons r rest ih =>
    simp [writtenChunks_append, ih, BlockingWriteAndFlush.roundCalls, writtenChunks]

/-- No round calls `flush`. -/
theorem flush_not_mem_rounds (rs : List (Nat × List Nat)) :
    StreamCall.flush ∉ (rs.map BlockingWriteAndFlush.roundCalls).flatten := by
  induction rs with
  | nil => simp
  | cons r rest ih =>
    simp only [List.map_cons, List.flatten_cons, List.mem_append, not_or]
    exact ⟨by simp [BlockingWriteAndFlush.roundCalls], ih⟩

/-- The loop ends exactly when the permits received add up to the length of
the contents at least. -/
theorem BlockingWriteAndFlush.rounds_some_iff (permits : List Nat) :
    ∀ contents : List Nat,
      (∃ rs, BlockingWriteAndFlush.rounds permits contents = some rs) ↔
        contents.length ≤ permits.sum := by
  induction permits with
  | nil =>
    intro contents
    cases contents with
    | nil => simp [BlockingWriteAndFlush.rounds]
    | cons a l => simp [BlockingWriteAndFlush.rounds]
  | cons n permits ih =>
    intro contents
    cases contents with
    | nil => simp [BlockingWriteAndFlush.rounds]
    | cons a l =>
      have hrest := ih ((a :: l).drop (min n (a :: l).length))
      simp only [List.length_drop] at hrest
      simp only [BlockingWriteAndFlush.rounds, List.isEmpty_cons, Bool.false_eq_true,
        if_false, Option.map_eq_some', List.sum_cons]
      constructor
      · rintro ⟨rs, rs1, h1, _⟩
        have := hrest.mp ⟨rs1, h1⟩
        omega
      · intro hlen
        obtain ⟨rs1, h1⟩ := hrest.mpr (by omega)
        exact ⟨_, rs1, h1, rfl⟩

/-- C13: the pseudo-code documented on `BlockingWriteAndFlush` drains any
contents in chunks. Whenever it runs to its end on the permits that the
`check-write` calls return, the round with permit `n` writes a chunk of length
`min(n, remaining length)`, which is at most `n`, the permits used are the
ones received in order, the chunks passed to `write`, concatenated in order,
are the contents, and `flush` is called exactly once, after every `write`.
It runs to its end exactly when the permits received add up to the length of
the contents at least, in particular with positive permits, at least as many
as there are bytes. -/
theorem blockingWriteAndFlush_drains (permits contents : List Nat) :
    (∀ calls, BlockingWriteAndFlush permits contents = some calls →
      ∃ rs : List (Nat × List Nat),
        BlockingWriteAndFlush.rounds permits contents = some rs ∧
        rs.map Prod.fst = permits.take rs.length ∧
        (∀ (pre post : List (Nat × List Nat)) (r : Nat × List Nat), rs = pre ++ r :: post →
          r.2.length = min r.1 (contents.length - (pre.map fun x => x.2.length).sum) ∧
          r.2.length ≤ r.1) ∧
        writtenChunks calls = rs.map Prod.snd ∧
        (writtenChunks calls).flatten = contents ∧
        calls.count StreamCall.flush = 1 ∧
        ∃ front : List StreamCall,
          calls = front ++ [StreamCall.flush, StreamCall.block, StreamCall.checkWrite] ∧
          StreamCall.flush ∉ front ∧
          writtenChunks front = writtenChunks calls) ∧
    ((∃ calls, BlockingWriteAndFlush permits contents = some calls) ↔
      contents.length ≤ permits.sum) ∧
    ((∀ n ∈ permits, 0 < n) → contents.length ≤ permits.length →
      ∃ calls, BlockingWriteAndFlush permits contents = some calls) := by
  refine ⟨?_, ?_, ?_⟩
  · intro calls h
    simp only [BlockingWriteAndFlush, Option.map_eq_some'] at h
    obtain ⟨rs, hrs, hcalls⟩ := h
    have hw : writtenChunks calls = rs.map Prod.snd := by
      rw [← hcalls]
      simp [writtenChunks_append, writtenChunks_rounds, writtenChunks]
    have hfront : StreamCall.flush ∉
        [StreamCall.subscribe] ++ (rs.map BlockingWriteAndFlush.roundCalls).flatten := by
      simp only [List.mem_append, not_or]
      exact ⟨by simp, flush_not_mem_rounds rs⟩
    refine ⟨rs, hrs, BlockingWriteAndFlush.rounds_permits permits contents rs hrs, ?_, hw, ?_,
      ?_, [StreamCall.subscribe] ++ (rs.map BlockingWriteAndFlush.roundCalls).flatten,
      hcalls.symm, hfront, ?_⟩
    · intro pre post r hsplit
      have hlen := BlockingWriteAndFlush.rounds_chunk permits contents rs pre post r hrs hsplit
      exact ⟨hlen, by omega⟩
    · rw [hw]
      exact BlockingWriteAndFlush.rounds_concat permits contents rs hrs
    · rw [← hcalls, List.count_append, List.count_eq_zero_of_not_mem hfront]
      decide
    · rw [hw]
      simp [writtenChunks_append, writtenChunks_rounds, writtenChunks]
  · rw [← BlockingWriteAndFlush.rounds_some_iff permits contents]
    simp only [BlockingWriteAndFlush, Option.map_eq_some']
    constructor
    · rintro ⟨calls, rs, hrs, _⟩
      exact ⟨rs, hrs⟩
    · rintro ⟨rs, hrs⟩
      exact ⟨_, rs, hrs, rfl⟩
  · intro hpos hlen
    obtain ⟨rs, hrs⟩ := BlockingWriteAndFlush.rounds_ends permits contents hpos hlen
    exact ⟨[StreamCall.subscribe] ++ (rs.map BlockingWriteAndFlush.roundCalls).flatten ++
      [StreamCall.flush, StreamCall.block, StreamCall.checkWrite], by
      simp [BlockingWriteAndFlush, hrs]⟩

/-- Witness for C13: six bytes drained under the permits 2, 0, 3, 5 in four
chunks of lengths 2, 0, 3, 1; four bytes under the single permit 4096 are
drained too, and six bytes under the permits 2, 0, 3 are not. -/
theorem blockingWriteAndFlush_drains_witness :
    (∃ calls, BlockingWriteAndFlush [4096] [7, 7, 7, 7] = some calls) ∧
    BlockingWriteAndFlush [2, 0, 3] [1, 2, 3, 4, 5, 6] = none ∧
    ∃ rs : List (Nat × List Nat),
      BlockingWriteAndFlush.rounds [2, 0, 3, 5] [1, 2, 3, 4, 5, 6] = some rs ∧
      rs.map Prod.fst = [2, 0, 3, 5].take rs.length ∧
      (writtenChunks
        [StreamCall.subscribe,
         StreamCall.block, StreamCall.checkWrite, StreamCall.write [1, 2],
         StreamCall.block, StreamCall.checkWrite, StreamCall.write [],
         StreamCall.block, StreamCall.checkWrite, StreamCall.write [3, 4, 5],
         StreamCall.block, StreamCall.checkWrite, StreamCall.write [6],
         StreamCall.flush, StreamCall.block, StreamCall.checkWrite]).flatten =
        [1, 2, 3, 4, 5, 6] :=
  ⟨(blockingWriteAndFlush_drains [4096] [7, 7, 7, 7]).2.1.mpr (by decide), by decide,
  match (blockingWriteAndFlush_drains [2, 0, 3, 5] [1, 2, 3, 4, 5, 6]).1
    [StreamCall.subscribe,
     StreamCall.block, StreamCall.checkWrite, StreamCall.write [1, 2],
     StreamCall.block, StreamCall.checkWrite, StreamCall.write [],
     StreamCall.block, StreamCall.checkWrite, StreamCall.write [3, 4, 5],
     StreamCall.block, StreamCall.checkWrite, StreamCall.write [6],
     StreamCall.flush, StreamCall.block, StreamCall.checkWrite] (by decide) with
  | ⟨rs, h1, h2, _, _, h5, _⟩ => ⟨rs, h1, h2, h5⟩⟩

/-- Witness for C14: the zero value `StreamError{}` on an appending writer;
the call returns, with no deferred writer. -/
theorem WriteToIndex_error_iff_witness :
    ∃ (w1 : List Nat) (e : Option GoError),
      (StreamError.zero Nat).WriteToIndex bufferWriter pathIndexWriter [] =
        Outcome.ret (w1, none, e) :=
  match WriteToIndex_error_iff bufferWriter pathIndexWriter (StreamError.zero Nat) [] with
  | ⟨w1, e, h, _⟩ => ⟨w1, e, h⟩

/-- C15: for every 8-bit discriminant `d`, `PutUvarint` on the 2-byte buffer
returns, without indexing outside the buffer, a length `i` with
`1 <= i <= 2`; the buffer keeps its 2 bytes, so the slice `b[:i]` lies within
it, and the discriminant writer does not panic on any writer: it returns the
error of the one `Write` of `b[:i]`. -/
theorem discriminant_writer_safe (d : Fin 256) :
    ∃ (b : List Nat) (i : Nat),
      PutUvarint (List.replicate 2 0) d.val = Outcome.ret (b, i) ∧
      1 ≤ i ∧ i ≤ 2 ∧ b.length = 2 ∧ i ≤ b.length ∧
      (b.take i).length = i ∧
      (∀ (σ : Type) (W : ByteWriter σ) (w : σ),
        writeDiscriminant W d.val w =
          Outcome.ret ((W.Write w (b.take i)).1, (W.Write w (b.take i)).2.2)) := by
  by_cases h : d.val < 128
  · refine ⟨[d.val, 0], 1, ?_, by decide, by decide, rfl, by simp, rfl, ?_⟩
    · rw [PutUvarint_uint8]
      simp [h]
    · intro σ W w
      rw [writeDiscriminant_uint8]
      simp [h]
  · refine ⟨[d.val % 128 + 128, d.val / 128], 2, ?_, by decide, by decide, rfl, by simp,
      rfl, ?_⟩
    · rw [PutUvarint_uint8]
      simp [h]
    · intro σ W w
      rw [writeDiscriminant_uint8]
      simp [h]

end Streams
